import Mathlib

/-!
Verification of the `prelude-music/ts-client` API client
(`src/src/ApiClient.ts`), shallowly embedded in Lean 4.

Modelling conventions:
* JS strings are Lean `String`s (the code only manipulates them via
  concatenation, `endsWith`/`startsWith`/`slice`, which we model on
  `String.data`).
* Parsed JSON values (`await res.json()`) are values of the inductive
  `Json` below; JS numbers are modelled as `Int` (the client never
  produces nor inspects non-integral numbers).
* The mutable `URL` objects handed around by `ApiRequest.concatUrl`
  are modelled with an explicit heap: a `Heap` maps object references
  (`Nat`) to `URLVal` records, and mutating operations are state
  transformers on the heap.  `URLVal.search` stores the serialized
  query string without the leading question mark.
* Exceptions become `Except`: the classifier `ApiResponse.from`
  returns `Except FetchFailure _`, where `FetchFailure` distinguishes
  the `throw new ApiError(...)` path, the `throw new Error(...)` path,
  and the runtime `TypeError` raised by evaluating the JS `in`
  operator on a non-object operand.
-/

/-- A parsed JSON document, the result of `await res.json()`.
Numbers are modelled as integers. -/
inductive Json where
  | null : Json
  | bool : Bool → Json
  | num : Int → Json
  | str : String → Json
  | arr : List Json → Json
  | obj : List (String × Json) → Json

/-- `typeof v` for a parsed JSON value: `typeof null`, arrays and plain
objects are all `"object"` in JavaScript. -/
def jsTypeof : Json → String
  | .null => "object"
  | .bool _ => "boolean"
  | .num _ => "number"
  | .str _ => "string"
  | .arr _ => "object"
  | .obj _ => "object"

/-- The JS `key in v` operator.  On a plain object it tests key
membership; on an array it tests `"length"` and numeric indices; on any
primitive (including `null`) it throws a `TypeError`, modelled as
`.error`. -/
def jsIn (key : String) : Json → Except String Bool
  | .obj fields => .ok (fields.any (fun kv => kv.1 == key))
  | .arr elems => .ok (key == "length" ||
      (match key.toNat? with
       | some i => decide (i < elems.length)
       | none => false))
  | _ => .error ("TypeError: Cannot use the in operator to search for " ++ key ++ " in a non-object")

/-- Property access `v[key]` on a parsed JSON value, used only after a
successful `key in v` test (so the key is present); absent keys and
primitive receivers yield `null` here, a case the classifier never
reaches. -/
def jsGet (key : String) : Json → Json
  | .obj fields => ((fields.find? (fun kv => kv.1 == key)).map Prod.snd).getD .null
  | _ => .null

/-- Minimal model of `JSON.stringify` string escaping: quotes,
backslashes and the common control characters.  (The claims only
exercise plain ASCII strings.) -/
def jsonEscapeChar (c : Char) : String :=
  if c = '"' then "\\\""
  else if c = '\\' then "\\\\"
  else if c = '\n' then "\\n"
  else if c = '\t' then "\\t"
  else if c = '\r' then "\\r"
  else String.mk [c]

def jsonEscape (s : String) : String :=
  String.join (s.data.map jsonEscapeChar)

mutual

/-- `JSON.stringify` on a parsed JSON value. -/
def jsonStringify : Json → String
  | .null => "null"
  | .bool true => "true"
  | .bool false => "false"
  | .num n => toString n
  | .str s => "\"" ++ jsonEscape s ++ "\""
  | .arr xs => "[" ++ jsonStringifyElems xs ++ "]"
  | .obj fs => "\x7b" ++ jsonStringifyFields fs ++ "\x7d"

def jsonStringifyElems : List Json → String
  | [] => ""
  | [x] => jsonStringify x
  | x :: y :: xs => jsonStringify x ++ "," ++ jsonStringifyElems (y :: xs)

def jsonStringifyFields : List (String × Json) → String
  | [] => ""
  | [(k, v)] => "\"" ++ jsonEscape k ++ "\":" ++ jsonStringify v
  | (k, v) :: f :: fs =>
      "\"" ++ jsonEscape k ++ "\":" ++ jsonStringify v ++ "," ++ jsonStringifyFields (f :: fs)

end

/-- The last character of a JS string, if any. -/
def lastChar? (s : String) : Option Char := s.data.reverse.head?

/-- Models `s.endsWith("/")`. -/
def endsWithSlash (s : String) : Bool := lastChar? s == some '/'

/-- Models `s.startsWith("/")`. -/
def startsWithSlash (s : String) : Bool := s.data.head? == some '/'

/-- Models `s.slice(1)`. -/
def slice1 (s : String) : String := String.mk (s.data.drop 1)

/-- The pure path computation performed by `ApiRequest.concatUrl`
(src/src/ApiClient.ts line 178):
`basePath + (basePath.endsWith("/") && path.startsWith("/") ? path.slice(1) : path)`. -/
def concatUrlPath (basePath path : String) : String :=
  basePath ++ (if endsWithSlash basePath && startsWithSlash path then slice1 path else path)

/-! ## URL objects, headers and query parameters -/

/-- The observable state of a WHATWG `URL` object, restricted to the two
components the client touches.  `search` holds the serialized query
string (without the leading question mark). -/
structure URLVal where
  pathname : String
  search : String
deriving DecidableEq

/-- A heap of `URL` objects: object references are natural numbers. -/
abbrev Heap := Nat → URLVal

/-- Update the URL object at reference `r`. -/
def Heap.write (h : Heap) (r : Nat) (u : URLVal) : Heap :=
  fun r2 => if r2 = r then u else h r2

/-- A `Headers` object: a list of (name, value) pairs whose names are
stored lowercased, as the platform `Headers` class normalizes them. -/
abbrev HeadersVal := List (String × String)

/-- `headers.append(name, value)`: combine with an existing value for
the same (case-insensitive) name, else add at the end. -/
def headersAppend (hs : HeadersVal) (name value : String) : HeadersVal :=
  let n := name.toLower
  if hs.any (fun kv => kv.1 == n) then
    hs.map (fun kv => if kv.1 == n then (kv.1, kv.2 ++ ", " ++ value) else kv)
  else hs ++ [(n, value)]

/-- `new Headers(headersInit)`: append every entry of the init object. -/
def headersOfInit (init : List (String × String)) : HeadersVal :=
  init.foldl (fun hs kv => headersAppend hs kv.1 kv.2) []

/-- `headers.delete(name)`. -/
def headersDelete (hs : HeadersVal) (name : String) : HeadersVal :=
  hs.filter (fun kv => !(kv.1 == name.toLower))

/-- `headers.set(name, value)`: replace the first entry with that
(case-insensitive) name and drop the others, else add at the end. -/
def headersSet (hs : HeadersVal) (name value : String) : HeadersVal :=
  match hs with
  | [] => [(name.toLower, value)]
  | kv :: rest =>
    if kv.1 == name.toLower then
      (name.toLower, value) :: rest.filter (fun kv2 => !(kv2.1 == name.toLower))
    else kv :: headersSet rest name value

/-- `headers.get(name)`. -/
def headersGet (hs : HeadersVal) (name : String) : Option String :=
  (hs.find? (fun kv => kv.1 == name.toLower)).map Prod.snd

/-- A `URLSearchParams` object: an ordered list of (key, value) pairs. -/
abbrev SearchParams := List (String × String)

/-- `usp.append(key, value)`. -/
def uspAppend (ps : SearchParams) (k v : String) : SearchParams :=
  ps ++ [(k, v)]

/-- `usp.set(key, value)`: replace the first pair with this key and drop
the later ones, else add at the end. -/
def uspSet (ps : SearchParams) (k v : String) : SearchParams :=
  match ps with
  | [] => [(k, v)]
  | kv :: rest =>
    if kv.1 == k then (k, v) :: rest.filter (fun kv2 => !(kv2.1 == k))
    else kv :: uspSet rest k v

/-- One hex digit, uppercase, as `URLSearchParams` percent-encoding
produces. -/
def hexDigit (n : Nat) : Char :=
  if n < 10 then Char.ofNat (48 + n) else Char.ofNat (55 + n)

def percentByte (b : Nat) : String :=
  "%" ++ String.mk [hexDigit (b / 16), hexDigit (b % 16)]

/-- The UTF-8 bytes of a code point, as natural numbers. -/
def utf8Bytes (n : Nat) : List Nat :=
  if n < 128 then [n]
  else if n < 2048 then [192 + n / 64, 128 + n % 64]
  else if n < 65536 then [224 + n / 4096, 128 + (n / 64) % 64, 128 + n % 64]
  else [240 + n / 262144, 128 + (n / 4096) % 64, 128 + (n / 64) % 64, 128 + n % 64]

/-- `application/x-www-form-urlencoded` encoding of one character, as
`URLSearchParams.toString` uses: space becomes `+`, ASCII alphanumerics
and `*-._` stay, everything else is percent-encoded. -/
def formEncodeChar (c : Char) : String :=
  if c = ' ' then "+"
  else if c.isAlphanum || c = '*' || c = '-' || c = '.' || c = '_' then String.mk [c]
  else String.join ((utf8Bytes c.toNat).map percentByte)

def formEncode (s : String) : String :=
  String.join (s.data.map formEncodeChar)

/-- `usp.toString()`. -/
def searchParamsToString (ps : SearchParams) : String :=
  String.intercalate "&" (ps.map (fun kv => formEncode kv.1 ++ "=" ++ formEncode kv.2))

/-! ## The client, request descriptors and the response classifier -/

/-- An `ApiClient`: it stores one reference to its base `URL` object
(`public readonly baseUrl: URL`). -/
structure ApiClientObj where
  baseUrl : Nat
deriving DecidableEq

/-- `ApiClient.Body`: a content type plus payload (`BodyInit` modelled
as a string, which is all the client produces). -/
structure BodyObj where
  contentType : String
  body : String
deriving DecidableEq

/-- `new ApiClient.JsonBody(json)`:
`super("application/json", JSON.stringify(json))`. -/
def JsonBody (json : Json) : BodyObj :=
  { contentType := "application/json", body := jsonStringify json }

/-- An `ApiClient.ApiRequest` value.  `url` is a reference into the
heap of URL objects. -/
structure ApiRequest where
  api : ApiClientObj
  url : Nat
  headers : HeadersVal
  method : String
  body : Option BodyObj
deriving DecidableEq

/-- `ApiRequest.concatUrl(baseUrl, path)` (src/src/ApiClient.ts lines
177-180): assigns `baseUrl.pathname = baseUrl.pathname + (...)` and
returns `baseUrl` — the same object reference, with the heap updated. -/
def ApiRequest.concatUrl (h : Heap) (baseUrl : Nat) (path : String) : Nat × Heap :=
  (baseUrl, h.write baseUrl
    { h baseUrl with pathname := concatUrlPath (h baseUrl).pathname path })

/-- The `ApiRequest` constructor (src/src/ApiClient.ts lines 165-175):
compose the URL from the client's base URL, overwrite its query string,
build the headers, and attach the body (forcing the content-type
header) unless the method is GET or HEAD. -/
def ApiRequest.make (h : Heap) (api : ApiClientObj) (path : String)
    (query : SearchParams) (headersInit : List (String × String))
    (method : String) (body : Option BodyObj) : ApiRequest × Heap :=
  let urlAndHeap := ApiRequest.concatUrl h api.baseUrl path
  let urlRef := urlAndHeap.1
  let h1 := urlAndHeap.2
  let h2 := h1.write urlRef { h1 urlRef with search := searchParamsToString query }
  let headers0 := headersOfInit headersInit
  let attached : Option BodyObj :=
    match body with
    | some b => if method ≠ "GET" ∧ method ≠ "HEAD" then some b else none
    | none => none
  let headers :=
    match attached with
    | some b => headersSet (headersDelete headers0 "content-type") "content-type" b.contentType
    | none => headers0
  ({ api := api, url := urlRef, headers := headers, method := method, body := attached }, h2)

/-- The raw transport result (`Response`): its `ok` flag, `status`, and
the parsed JSON body (the claims under study all start after a
successful `await res.json()`). -/
structure RawResult where
  ok : Bool
  status : Nat
  body : Json

/-- An `ApiClient.ApiResponse` envelope. -/
structure ApiResponse where
  req : ApiRequest
  res : RawResult
  body : Json

/-- The failure outcomes of `ApiResponse.from`:
`apiError` is `throw new ApiError(new ApiResponse(req, res, body))`,
`unknownError` is the generic
`throw new Error("Unknown error response received. ...")`, and
`typeError` is the runtime `TypeError` thrown by evaluating the JS `in`
operator on a non-object operand. -/
inductive FetchFailure where
  | apiError (resp : ApiResponse)
  | unknownError (message : String)
  | typeError (message : String)

/-- The message string of the generic error branch:
`` `Unknown error response received. status=${res.status} body=${JSON.stringify(body)}` ``. -/
def unknownErrorMessage (status : Nat) (body : Json) : String :=
  "Unknown error response received. status=" ++ toString status ++
    " body=" ++ jsonStringify body

/-- The argument the `ApiError` constructor passes to `super(...)`:
`res.body.error.message`. -/
def apiErrorMessage (resp : ApiResponse) : Json :=
  jsGet "message" (jsGet "error" resp.body)

/-- `ApiResponse.from(req, res)` (src/src/ApiClient.ts lines 142-150),
after `await res.json()` has produced `res.body`.  The JS condition
`"error" in body && typeof body === "object" && "message" in body.error`
is evaluated left to right with short-circuiting, so the `in` operator
runs on `body` before the `typeof` guard, and on `body.error`
unguarded. -/
def ApiResponse.from (req : ApiRequest) (res : RawResult) : Except FetchFailure ApiResponse :=
  let body := res.body
  if res.ok then
    .ok { req := req, res := res, body := body }
  else
    match jsIn "error" body with
    | .error e => .error (.typeError e)
    | .ok false => .error (.unknownError (unknownErrorMessage res.status body))
    | .ok true =>
      if jsTypeof body = "object" then
        match jsIn "message" (jsGet "error" body) with
        | .error e => .error (.typeError e)
        | .ok true => .error (.apiError { req := req, res := res, body := body })
        | .ok false => .error (.unknownError (unknownErrorMessage res.status body))
      else
        .error (.unknownError (unknownErrorMessage res.status body))

/-! ## Endpoint layer -/

/-- The query construction shared verbatim by `listArtists`,
`listArtistAlbums`, `listArtistTracks`, `listAlbums` and
`listAlbumTracks`:
`if (limit !== undefined) query.set("limit", limit.toString());`
`if (page !== undefined) query.set("page", page.toString());`
(`undefined` is `none`). -/
def pageQuery (limit page : Option Int) : SearchParams :=
  let q : SearchParams := []
  let q := match limit with
    | some l => uspSet q "limit" (toString l)
    | none => q
  match page with
  | some p => uspSet q "page" (toString p)
  | none => q

/-- The query built by `ApiClient.listTracks` (src/src/ApiClient.ts
lines 108-113): the shared limit/page handling plus the optional
`sort` parameter. -/
def listTracksQuery (limit page : Option Int) (sort : Option String) : SearchParams :=
  let q := pageQuery limit page
  match sort with
  | some s => uspSet q "sort" s
  | none => q

/-- `ApiClient.listTracks(limit?, page?, sort?)`: builds the query and
constructs `new ApiClient.ApiRequest(this, "/tracks", query)`. -/
def listTracks (h : Heap) (api : ApiClientObj) (limit page : Option Int)
    (sort : Option String) : ApiRequest × Heap :=
  ApiRequest.make h api "/tracks" (listTracksQuery limit page sort) [] "GET" none

/-- The query built by `ApiClient.getArtists(ids)` (src/src/ApiClient.ts
lines 29-33): `for (const id of ids) usp.append("id", id);`. -/
def getArtistsQuery (ids : List String) : SearchParams :=
  ids.foldl (fun usp id => uspAppend usp "id" id) []

/-- `ApiClient.getArtists(ids)`: constructs
`new ApiClient.ApiRequest(this, "/artists", usp)`. -/
def getArtists (h : Heap) (api : ApiClientObj) (ids : List String) : ApiRequest × Heap :=
  ApiRequest.make h api "/artists" (getArtistsQuery ids) [] "GET" none

/-! ## The pagination contract -/

/-- The `Page<T>` record shape (src/src/ApiClient.ts lines 198-227). -/
structure Page (T : Type) where
  page : Nat
  limit : Nat
  total : Nat
  href : String
  previous : Option String
  next : Option String
  resources : List T

/-- Modelled from the spec: the repository only declares the `Page<T>`
interface; the server-side code that produces pages is not part of this
client.  Following the spec (sections 3 and 4.5), page `pg` of the
collection `all` with `lim` resources per page: `total` is the size of
the whole collection, `previous` is null exactly on the first page,
`next` is null exactly when no items remain beyond `pg * lim`, and
`resources` is the corresponding slice of the collection. -/
def mkPage (T : Type) (all : List T) (lim pg : Nat) (href : String) : Page T :=
  { page := pg
    limit := lim
    total := all.length
    href := href
    previous := if pg = 1 then none else some (href ++ "?page=" ++ toString (pg - 1))
    next := if all.length ≤ pg * lim then none else some (href ++ "?page=" ++ toString (pg + 1))
    resources := (all.drop ((pg - 1) * lim)).take lim }

/-! ## Helper lemmas -/

theorem endsWithSlash_concat (b : String) : endsWithSlash (b ++ "/") = true := by
  have hdata : (b ++ "/").data = b.data ++ ['/'] := rfl
  simp [endsWithSlash, lastChar?, hdata]

theorem startsWithSlash_concat (r : String) : startsWithSlash ("/" ++ r) = true := rfl

theorem slice1_concat (r : String) : slice1 ("/" ++ r) = r := rfl

theorem headersGet_set (hs : HeadersVal) (n v : String) :
    headersGet (headersSet hs n v) n = some v := by
  induction hs with
  | nil => simp [headersSet, headersGet, List.find?]
  | cons kv rest ih =>
    by_cases hk : (kv.1 == n.toLower) = true
    · simp [headersSet, headersGet, hk, List.find?]
    · simp only [headersSet, Bool.not_eq_true] at *
      rw [hk]
      simpa [headersGet, List.find?, hk] using ih

theorem getArtistsQuery_aux (ids : List String) (acc : SearchParams) :
    ids.foldl (fun usp id => uspAppend usp "id" id) acc
      = acc ++ ids.map (fun id => ("id", id)) := by
  induction ids generalizing acc with
  | nil => simp
  | cons x xs ih => rw [List.foldl_cons, ih]; simp [uspAppend]

/-! ## Sample values used by the closed theorems -/

def sampleHeap : Heap := fun _ => { pathname := "/v1/", search := "" }

def rootHeap : Heap := fun _ => { pathname := "/", search := "" }

def sampleRequest : ApiRequest :=
  { api := { baseUrl := 0 }, url := 0, headers := [], method := "GET", body := none }

def sampleOkResult : RawResult :=
  { ok := true, status := 200
    body := Json.obj [("id", Json.str "t1"), ("title", Json.str "Song")] }

/-- The error body shape `\x7b"error":\x7b"message":m\x7d\x7d`. -/
def errorBody (m : String) : Json :=
  Json.obj [("error", Json.obj [("message", Json.str m)])]

/-! ## Claims -/

/-- C1 (counterexample): joining base path `"/v1"` with relative path
`"tracks"` — neither side supplying a slash — yields `"/v1tracks"`:
the composer inserts no separating slash, contradicting the claim that
exactly one separator appears regardless of which side supplies it. -/
theorem concatUrl_inserts_no_slash :
    concatUrlPath "/v1" "tracks" = "/v1tracks" ∧
    concatUrlPath "/v1" "tracks" ≠ "/v1" ++ "/" ++ "tracks" := by
  decide

/-- C1 (amended): when at least one side supplies the slash at the
junction — base ends with `/`, or the relative path starts with `/`, or
both — the composed path is the base core and the path core joined by
exactly one slash; when neither side supplies one, the parts are
concatenated directly with no slash inserted. -/
theorem concatUrl_single_separator (b r : String)
    (hb : endsWithSlash b = false) (hr : startsWithSlash r = false) :
    concatUrlPath (b ++ "/") r = b ++ "/" ++ r ∧
    concatUrlPath b ("/" ++ r) = b ++ "/" ++ r ∧
    concatUrlPath (b ++ "/") ("/" ++ r) = b ++ "/" ++ r ∧
    concatUrlPath b r = b ++ r := by
  refine ⟨?_, ?_, ?_, ?_⟩
  · unfold concatUrlPath
    rw [endsWithSlash_concat, hr]
    simp
  · unfold concatUrlPath
    rw [hb]
    simp [String.append_assoc]
  · unfold concatUrlPath
    rw [endsWithSlash_concat, startsWithSlash_concat, slice1_concat]
    simp
  · unfold concatUrlPath
    rw [hb]
    simp

/-- C1 (witness): the amended statement at base core `"/v1"` and path
core `"tracks"`. -/
theorem concatUrl_single_separator_witness :
    concatUrlPath ("/v1" ++ "/") ("/" ++ "tracks") = "/v1" ++ "/" ++ "tracks" ∧
    concatUrlPath "/v1" "tracks" = "/v1" ++ "tracks" :=
  ⟨(concatUrl_single_separator "/v1" "tracks" (by decide) (by decide)).2.2.1,
   (concatUrl_single_separator "/v1" "tracks" (by decide) (by decide)).2.2.2⟩

/-- C2: the classifier evaluates `"error" in body` before the `typeof`
guard, so with `ok=false` a parsed body of `null` (and likewise any
number, string or boolean, and any object whose `error` value is a
primitive) makes the `in` operator throw a `TypeError` instead of the
generic unrecognized-error failure that the claim — and the code's own
`@throws` documentation — describes; a non-matching plain object does
reach the generic failure. -/
theorem error_classifier_typeerror_on_nonobject :
    ApiResponse.from sampleRequest { ok := false, status := 500, body := Json.null } =
      .error (.typeError
        "TypeError: Cannot use the in operator to search for error in a non-object") ∧
    ApiResponse.from sampleRequest
        { ok := false, status := 500, body := Json.obj [("error", Json.str "oops")] } =
      .error (.typeError
        "TypeError: Cannot use the in operator to search for message in a non-object") ∧
    ApiResponse.from sampleRequest
        { ok := false, status := 500, body := Json.obj [("foo", Json.str "bar")] } =
      .error (.unknownError
        "Unknown error response received. status=500 body=\x7b\"foo\":\"bar\"\x7d") :=
  ⟨rfl, rfl, rfl⟩

/-- C3: when a body is supplied and the method is neither GET nor HEAD,
the constructed request attaches the body and forces the content-type
header to the body's declared content type, overriding any
caller-supplied value; with method GET or HEAD no body is attached. -/
theorem request_body_header_invariant (h : Heap) (api : ApiClientObj) (path : String)
    (query : SearchParams) (hdrs : List (String × String)) (method : String) (b : BodyObj) :
    (method ≠ "GET" → method ≠ "HEAD" →
      (ApiRequest.make h api path query hdrs method (some b)).1.body = some b ∧
      headersGet (ApiRequest.make h api path query hdrs method (some b)).1.headers
          "content-type" = some b.contentType) ∧
    (method = "GET" ∨ method = "HEAD" →
      (ApiRequest.make h api path query hdrs method (some b)).1.body = none) := by
  constructor
  · intro h1 h2
    have hcond : method ≠ "GET" ∧ method ≠ "HEAD" := ⟨h1, h2⟩
    simp [ApiRequest.make, hcond, headersGet_set]
  · intro h12
    have hcond : ¬(method ≠ "GET" ∧ method ≠ "HEAD") := by
      rcases h12 with h | h <;> simp [h]
    simp [ApiRequest.make, hcond]

/-- C3 (witness): a POST with a JSON body on a client whose caller
pre-set a different content-type header ends with content-type
`application/json` and the body attached; the same body with method GET
is not attached. -/
theorem request_body_header_invariant_witness :
    (ApiRequest.make sampleHeap { baseUrl := 0 } "/tracks" [] [("Content-Type", "text/plain")]
        "POST" (some (JsonBody (Json.obj [])))).1.body = some (JsonBody (Json.obj [])) ∧
    headersGet (ApiRequest.make sampleHeap { baseUrl := 0 } "/tracks" []
        [("Content-Type", "text/plain")] "POST" (some (JsonBody (Json.obj [])))).1.headers
        "content-type" = some "application/json" ∧
    (ApiRequest.make sampleHeap { baseUrl := 0 } "/tracks" [] [] "GET"
        (some (JsonBody (Json.obj [])))).1.body = none :=
  ⟨((request_body_header_invariant sampleHeap { baseUrl := 0 } "/tracks" []
      [("Content-Type", "text/plain")] "POST" (JsonBody (Json.obj []))).1
      (by decide) (by decide)).1,
   ((request_body_header_invariant sampleHeap { baseUrl := 0 } "/tracks" []
      [("Content-Type", "text/plain")] "POST" (JsonBody (Json.obj []))).1
      (by decide) (by decide)).2,
   (request_body_header_invariant sampleHeap { baseUrl := 0 } "/tracks" []
      [] "GET" (JsonBody (Json.obj []))).2 (Or.inl rfl)⟩

/-- C4: when the raw result's `ok` flag is true, the classifier returns
the success envelope wrapping the originating request, the raw result
and exactly the parsed body, and throws nothing. -/
theorem response_ok_passthrough (req : ApiRequest) (res : RawResult) (hok : res.ok = true) :
    ApiResponse.from req res = .ok { req := req, res := res, body := res.body } := by
  simp [ApiResponse.from, hok]

/-- C4 (witness): an `ok=true` response with body
`\x7b"id":"t1","title":"Song"\x7d` yields the success envelope with
exactly that body. -/
theorem response_ok_passthrough_witness :
    ApiResponse.from sampleRequest sampleOkResult =
      .ok { req := sampleRequest, res := sampleOkResult
            body := Json.obj [("id", Json.str "t1"), ("title", Json.str "Song")] } :=
  response_ok_passthrough sampleRequest sampleOkResult rfl

/-- C5: an `ok=false` response whose body is
`\x7b"error":\x7b"message":m\x7d\x7d` is thrown as the recognized
`ApiError` carrying the full envelope, and the message value the
`ApiError` constructor passes to `super` — the error's display text —
is exactly `m`. -/
theorem recognized_error_message (req : ApiRequest) (st : Nat) (m : String) :
    ApiResponse.from req { ok := false, status := st, body := errorBody m } =
      .error (.apiError
        { req := req, res := { ok := false, status := st, body := errorBody m }
          body := errorBody m }) ∧
    apiErrorMessage
        { req := req, res := { ok := false, status := st, body := errorBody m }
          body := errorBody m } = Json.str m :=
  ⟨rfl, rfl⟩

/-- C6: with `limit` and `page` omitted, the list operations build an
empty parameter list and the track-listing request has an empty query
string; an explicitly supplied `limit` or `page` — any integer,
including `0` — is serialized under its key. -/
theorem listTracks_query_omission (h : Heap) (c : ApiClientObj) (l p : Int) :
    listTracksQuery none none none = [] ∧
    pageQuery none none = [] ∧
    (((listTracks h c none none none).2) ((listTracks h c none none none).1.url)).search = "" ∧
    listTracksQuery (some l) (some p) none = [("limit", toString l), ("page", toString p)] ∧
    listTracksQuery (some l) none none = [("limit", toString l)] ∧
    listTracksQuery none (some p) none = [("page", toString p)] := by
  refine ⟨rfl, rfl, ?_, ?_, rfl, rfl⟩
  · simp [listTracks, ApiRequest.make, ApiRequest.concatUrl, Heap.write,
      searchParamsToString, listTracksQuery, pageQuery]
    rfl
  · simp [listTracksQuery, pageQuery, uspSet, List.filter]

/-- C7: the bulk-get artists operation serializes every identifier as a
repeated `id` query parameter in input order, and for
`ids = ["a","b","c"]` the query string is `id=a&id=b&id=c`. -/
theorem getArtists_repeated_ids (ids : List String) :
    getArtistsQuery ids = ids.map (fun id => ("id", id)) ∧
    searchParamsToString (getArtistsQuery ["a", "b", "c"]) = "id=a&id=b&id=c" := by
  constructor
  · simpa using getArtistsQuery_aux ids []
  · rfl

/-- C8: `concatUrl` returns the very reference it was given — the
caller's base URL object — with that object's `pathname` updated in
place on the heap, and the request constructor then overwrites the same
object's query string wholesale with the serialization of the
caller-supplied query parameters. -/
theorem concatUrl_in_place_and_search_replaced (h : Heap) (api : ApiClientObj) (path : String)
    (query : SearchParams) (hdrs : List (String × String)) (method : String)
    (body : Option BodyObj) :
    (ApiRequest.concatUrl h api.baseUrl path).1 = api.baseUrl ∧
    ((ApiRequest.concatUrl h api.baseUrl path).2 api.baseUrl).pathname
        = concatUrlPath (h api.baseUrl).pathname path ∧
    (ApiRequest.make h api path query hdrs method body).1.url = api.baseUrl ∧
    ((ApiRequest.make h api path query hdrs method body).2 api.baseUrl).search
        = searchParamsToString query ∧
    ((ApiRequest.make h api path query hdrs method body).2 api.baseUrl).pathname
        = concatUrlPath (h api.baseUrl).pathname path := by
  refine ⟨rfl, ?_, rfl, ?_, ?_⟩ <;>
    simp [ApiRequest.make, ApiRequest.concatUrl, Heap.write]

/-- C9: for pages as the spec describes the server to produce them, the
number of resources never exceeds `limit`, `previous` is null exactly
on page 1, and `next` is null exactly when no items remain beyond
`page * limit`, consistently with `total`. -/
theorem page_invariants (T : Type) (all : List T) (lim pg : Nat) (href : String) :
    (mkPage T all lim pg href).resources.length ≤ (mkPage T all lim pg href).limit ∧
    ((mkPage T all lim pg href).previous = none ↔ (mkPage T all lim pg href).page = 1) ∧
    ((mkPage T all lim pg href).next = none ↔
      (mkPage T all lim pg href).total ≤
        (mkPage T all lim pg href).page * (mkPage T all lim pg href).limit) := by
  refine ⟨?_, ?_, ?_⟩
  · simp [mkPage, List.length_take]
  · by_cases h1 : pg = 1 <;> simp [mkPage, h1]
  · by_cases h2 : all.length ≤ pg * lim <;> simp [mkPage, h2]

/-- C10: the client stores a single base URL object and every request
composes into it, so constructing one request with path `p` and then a
second with path `q` on the same client leaves the second request —
whose URL is again the client's base URL object — with a pathname
containing both `p` and `q` concatenated; concretely, base path `"/"`
then `"/tracks"` then `"/artists"` ends at `"/tracks/artists"`. -/
theorem client_base_url_contamination (h : Heap) (api : ApiClientObj) (p q : String) :
    (ApiRequest.make ((ApiRequest.make h api p [] [] "GET" none).2) api q [] [] "GET"
        none).1.url = api.baseUrl ∧
    ((ApiRequest.make ((ApiRequest.make h api p [] [] "GET" none).2) api q [] [] "GET"
        none).2 api.baseUrl).pathname
      = concatUrlPath (concatUrlPath (h api.baseUrl).pathname p) q ∧
    ((ApiRequest.make ((ApiRequest.make rootHeap { baseUrl := 0 } "/tracks" [] [] "GET"
        none).2) { baseUrl := 0 } "/artists" [] [] "GET" none).2 0).pathname
      = "/tracks/artists" := by
  refine ⟨rfl, ?_, ?_⟩
  · simp [ApiRequest.make, ApiRequest.concatUrl, Heap.write]
  · rfl
